import Mathlib

/-!
Verification of the reconciliation / classification core of the
Modification-Column-Chart-Plotting repository.

Python strings are modeled as lists of characters (`Str`), pandas null
values (`NaN`) as `Option.none`, Python dictionaries as association lists
with overwrite-on-insert semantics, and the site/transcript collections
consumed by the region-modification reconciler as finite maps
(a `Finset` of keys together with valuation functions).

Sources embedded:
- `region-modification proportion/column_chart_plotting.py` (and its
  `_style` twin, which has identical logic): `parse_region`,
  `process_sites_file`, and the set-reconciliation part of `main`;
- `rRNA_depletion/group_proportion_style.py`: `gene_type_to_rna`,
  `convert_gene_to_rna`, `grouping_rules`, `get_group_name`,
  `load_samples`, and the normalization step of `plot_rna_distribution`;
- `rRNA_depletion/FDR_proportion_plotting.py`: its `gene_type_to_rna`
  table, the `gene_type_to_rna.get(x, x)` conversion lambda, and the
  missing-column check of its `load_samples`.
-/

abbrev Str := List Char

/-! ### Character-level facts about `Char.toLower` (Python `str.lower`) -/

lemma char_toNat_ofNat_of_lt {m : Nat} (h : m < 0xd800) : (Char.ofNat m).toNat = m := by
  rw [Char.ofNat, dif_pos (Or.inl h)]
  rfl

lemma char_ext_toNat {c d : Char} (h : c.toNat = d.toNat) : c = d :=
  Char.ext (UInt32.ext h)

lemma char_toLower_eq (c : Char) :
    c.toLower = if 65 ≤ c.toNat ∧ c.toNat ≤ 90 then Char.ofNat (c.toNat + 32) else c := by
  rfl

lemma toNat_toLower (c : Char) :
    c.toLower.toNat = if 65 ≤ c.toNat ∧ c.toNat ≤ 90 then c.toNat + 32 else c.toNat := by
  rw [char_toLower_eq]
  split
  · next h => exact char_toNat_ofNat_of_lt (by omega)
  · rfl

lemma toLower_toLower (c : Char) : c.toLower.toLower = c.toLower := by
  apply char_ext_toNat
  rw [toNat_toLower, toNat_toLower c]
  split_ifs <;> omega

lemma isWhitespace_iff (c : Char) :
    c.isWhitespace = true ↔ (c.toNat = 32 ∨ c.toNat = 9 ∨ c.toNat = 13 ∨ c.toNat = 10) := by
  constructor
  · intro h
    unfold Char.isWhitespace at h
    simp only [Bool.or_eq_true, decide_eq_true_eq] at h
    rcases h with ((h | h) | h) | h <;> subst h <;> simp
  · intro h
    unfold Char.isWhitespace
    simp only [Bool.or_eq_true, decide_eq_true_eq]
    rcases h with h | h | h | h
    · exact Or.inl (Or.inl (Or.inl (char_ext_toNat (by rw [h]; rfl))))
    · exact Or.inl (Or.inl (Or.inr (char_ext_toNat (by rw [h]; rfl))))
    · exact Or.inl (Or.inr (char_ext_toNat (by rw [h]; rfl)))
    · exact Or.inr (char_ext_toNat (by rw [h]; rfl))

lemma isWhitespace_toLower (c : Char) : c.toLower.isWhitespace = c.isWhitespace := by
  by_cases h : 65 ≤ c.toNat ∧ c.toNat ≤ 90
  · have hl : c.toLower.toNat = c.toNat + 32 := by rw [toNat_toLower]; simp [h]
    have h1 : c.isWhitespace = false := by
      by_contra hc
      have := (isWhitespace_iff c).mp (by simpa using hc)
      omega
    have h2 : c.toLower.isWhitespace = false := by
      by_contra hc
      have := (isWhitespace_iff c.toLower).mp (by simpa using hc)
      omega
    rw [h1, h2]
  · have he : c.toLower = c := by
      apply char_ext_toNat
      rw [toNat_toLower]
      simp [h]
    rw [he]

/-! ### Python string primitives on `Str` -/

/-- Python `str.lower()` (ASCII range, which covers every label in the repository). -/
def lower (s : Str) : Str := s.map Char.toLower

/-- Python `str.strip()`: drop leading and trailing whitespace. -/
def strip (s : Str) : Str :=
  ((s.dropWhile Char.isWhitespace).reverse.dropWhile Char.isWhitespace).reverse

/-- Python `needle in hay` substring test. -/
def strContains : Str → Str → Bool
  | [], needle => needle.isEmpty
  | c :: t, needle => needle.isPrefixOf (c :: t) || strContains t needle

/-- Python `s.split(sep)[-1]` for a one-character separator: the segment after
the last occurrence of the separator (the whole string when it is absent). -/
def lastSegment (sep : Char) (s : Str) : Str :=
  (s.reverse.takeWhile (fun c => c ≠ sep)).reverse

/-- Python `s.split(sep)[0]`: the segment before the first occurrence. -/
def firstSegment (sep : Char) (s : Str) : Str :=
  s.takeWhile (fun c => c ≠ sep)

lemma lower_idem (s : Str) : lower (lower s) = lower s := by
  unfold lower
  rw [List.map_map]
  apply List.map_congr_left
  intro c _
  exact toLower_toLower c

lemma dropWhile_ws_lower (s : Str) :
    (lower s).dropWhile Char.isWhitespace = lower (s.dropWhile Char.isWhitespace) := by
  induction s with
  | nil => rfl
  | cons c t ih =>
    unfold lower
    simp only [List.map_cons, List.dropWhile_cons, isWhitespace_toLower]
    by_cases h : c.isWhitespace = true
    · simpa [h] using ih
    · simp [h]

lemma strip_lower (s : Str) : strip (lower s) = lower (strip s) := by
  unfold strip
  rw [dropWhile_ws_lower]
  have hrev : ∀ t : Str, (lower t).reverse = lower t.reverse := by
    intro t
    unfold lower
    exact (List.map_reverse _ _).symm
  rw [hrev, dropWhile_ws_lower, hrev]

lemma lower_eq_nil_iff (s : Str) : lower s = [] ↔ s = [] := by
  unfold lower
  simp

/-! ### Taxonomy Mapper, region variant: `parse_region`
(`column_chart_plotting.py` lines 11-28, identical in the `_style` file). -/

/-- The apostrophe character, written by code point. -/
def apos : Char := Char.ofNat 39

/-- The literal `"5' UTR"`. -/
def fiveUTR : Str := ['5', apos, ' ', 'U', 'T', 'R']

/-- The literal `"3' UTR"`. -/
def threeUTR : Str := ['3', apos, ' ', 'U', 'T', 'R']

/-- The list `['trna', 'rrna', 'ncrna', 'non-coding', 'pseudogene']` checked by
`parse_region`. -/
def ncRNA_type_labels : List Str :=
  ["trna".data, "rrna".data, "ncrna".data, "non-coding".data, "pseudogene".data]

/-- `parse_region(gene_type, gene_name)`: name-based UTR checks first, then the
type-label table, else `"Other"`. The Python `str(...)` coercion is outside the
model: callers pass the already non-null label strings. -/
def parse_region (gene_type gene_name : Str) : Str :=
  let gt := lower gene_type
  let gn := lower gene_name
  if strContains gn "upstream".data then fiveUTR
  else if strContains gn "downstream".data then threeUTR
  else if gt ∈ ncRNA_type_labels then "ncRNA".data
  else if gt = "protein_coding".data then "CDS".data
  else if gt = "intergenic".data then "Intergenic".data
  else "Other".data

/-! ### Taxonomy Mapper, depletion variant
(`group_proportion_style.py` lines 26-102 and `FDR_proportion_plotting.py`
lines 21-27, 82-85). -/

/-- The `gene_type_to_rna` table of `group_proportion_style.py` (all-lowercase
keys; the commented-out entries of the Python source are omitted, as they are
comments). -/
def gene_type_to_rna : List (Str × Str) :=
  [ ("protein_coding".data, "mRNA".data)
  , ("trna".data, "ncRNA".data)
  , ("trna_pseudogene".data, "ncRNA".data)
  , ("rrna_gene".data, "rRNA".data)
  , ("rrna_pseudogene".data, "ncRNA".data)
  , ("mirna".data, "ncRNA".data)
  , ("mirna_pseudogene".data, "ncRNA".data)
  , ("snrna".data, "ncRNA".data)
  , ("snrna_pseudogene".data, "ncRNA".data)
  , ("snorna".data, "ncRNA".data)
  , ("snorna_pseudogene".data, "ncRNA".data)
  , ("lncrna".data, "ncRNA".data)
  , ("lincrna".data, "ncRNA".data)
  , ("lncrna_pseudogene".data, "ncRNA".data)
  , ("pirna".data, "ncRNA".data)
  , ("scrna".data, "ncRNA".data)
  , ("circrna".data, "ncRNA".data)
  , ("sirna".data, "ncRNA".data)
  , ("vaultrna".data, "ncRNA".data)
  , ("yrna".data, "ncRNA".data)
  , ("scarna".data, "ncRNA".data)
  , ("7skrna".data, "ncRNA".data)
  , ("rnase_p_rna".data, "ncRNA".data)
  , ("rnase_mrp_rna".data, "ncRNA".data) ]

/-- `convert_gene_to_rna` of `group_proportion_style.py` with its default
argument `"unknown"`: `None`/NaN and whitespace-only inputs return the default,
otherwise the stripped, lowercased label is looked up in `gene_type_to_rna`
with the default as fallback. -/
def convert_gene_to_rna (gene_type : Option Str) : Str :=
  match gene_type with
  | none => "unknown".data
  | some s =>
    if strip s = [] then "unknown".data
    else (gene_type_to_rna.lookup (lower (strip s))).getD "unknown".data

/-- The `gene_type_to_rna` table of `FDR_proportion_plotting.py` (note the
mixed-case keys `tRNA` and `rRNA_gene`). -/
def fdr_gene_type_to_rna : List (Str × Str) :=
  [ ("protein_coding".data, "mRNA".data)
  , ("intergenic".data, "ncRNA".data)
  , ("pseudogene".data, "unaligned".data)
  , ("tRNA".data, "ncRNA".data)
  , ("rRNA_gene".data, "rRNA".data) ]

/-- The conversion lambda of `FDR_proportion_plotting.py` line 84:
`lambda x: gene_type_to_rna.get(x, x)` — a case-sensitive lookup that falls
back to the input label itself. -/
def fdr_convert (x : Str) : Str := (fdr_gene_type_to_rna.lookup x).getD x

/-- Values looked up in an association list are values of the list. -/
lemma lookup_mem_values {tbl : List (Str × Str)} {k v : Str}
    (h : tbl.lookup k = some v) : v ∈ tbl.map Prod.snd := by
  obtain ⟨l₁, l₂, rfl, -⟩ := List.lookup_eq_some_iff.mp h
  simp

lemma convert_gene_to_rna_canonical (g : Option Str) :
    convert_gene_to_rna g = "mRNA".data ∨ convert_gene_to_rna g = "rRNA".data ∨
    convert_gene_to_rna g = "ncRNA".data ∨ convert_gene_to_rna g = "unknown".data := by
  have hvals : ∀ v ∈ gene_type_to_rna.map Prod.snd,
      v = "mRNA".data ∨ v = "rRNA".data ∨ v = "ncRNA".data := by decide
  match g with
  | none => simp [convert_gene_to_rna]
  | some s =>
    by_cases hs : strip s = []
    · right; right; right
      simp [convert_gene_to_rna, hs]
    · cases hl : gene_type_to_rna.lookup (lower (strip s)) with
      | none =>
        right; right; right
        simp [convert_gene_to_rna, hs, hl]
      | some v =>
        have hv := hvals v (lookup_mem_values hl)
        have he : convert_gene_to_rna (some s) = v := by
          simp [convert_gene_to_rna, hs, hl]
        rw [he]
        tauto

lemma convert_lower_invariant (s : Str) :
    convert_gene_to_rna (some (lower s)) = convert_gene_to_rna (some s) := by
  by_cases hs : strip s = []
  · have h1 : strip (lower s) = [] := by
      rw [strip_lower, hs]
      rfl
    simp [convert_gene_to_rna, hs, h1]
  · have h1 : strip (lower s) ≠ [] := by
      rw [strip_lower]
      simpa [lower_eq_nil_iff] using hs
    have h2 : lower (strip (lower s)) = lower (strip s) := by
      rw [strip_lower, lower_idem]
    simp [convert_gene_to_rna, hs, h1, h2]

/-- Claim C4 (counterexample): the conversion of `FDR_proportion_plotting.py`
(line 84, `lambda x: gene_type_to_rna.get(x, x)`) maps the unmatched
mixed-case label `"Protein_Coding"` to itself — not to the `"unknown"`
sentinel, and not case-insensitively to `"mRNA"` (which the same script
produces for the exact-case key `"protein_coding"`). -/
theorem c4_fdr_fallback_counterexample :
    fdr_convert "Protein_Coding".data = "Protein_Coding".data
    ∧ "Protein_Coding".data ≠ "unknown".data
    ∧ "Protein_Coding".data ≠ "mRNA".data
    ∧ fdr_convert "protein_coding".data = "mRNA".data := by
  decide

/-- Claim C4 (amended): in `group_proportion_style.py`, `convert_gene_to_rna`
is a total case-insensitive lookup in the fixed `gene_type_to_rna` table:
null/NaN and whitespace-only inputs give `"unknown"`, lowercasing the input
does not change the result, every label missing from the table gives the
explicit `"unknown"` sentinel, every output is one of
mRNA/rRNA/ncRNA/unknown, and `"Protein_Coding"` maps to `"mRNA"`.
(The FDR script's conversion, by contrast, is case-sensitive and falls back
to the input label itself — see the counterexample.) -/
theorem c4_taxonomy_mapper_total :
    convert_gene_to_rna none = "unknown".data
    ∧ (∀ s : Str, strip s = [] → convert_gene_to_rna (some s) = "unknown".data)
    ∧ (∀ s : Str, convert_gene_to_rna (some (lower s)) = convert_gene_to_rna (some s))
    ∧ (∀ s : Str, gene_type_to_rna.lookup (lower (strip s)) = none →
        convert_gene_to_rna (some s) = "unknown".data)
    ∧ (∀ g : Option Str,
        convert_gene_to_rna g = "mRNA".data ∨ convert_gene_to_rna g = "rRNA".data ∨
        convert_gene_to_rna g = "ncRNA".data ∨ convert_gene_to_rna g = "unknown".data)
    ∧ convert_gene_to_rna (some "Protein_Coding".data) = "mRNA".data := by
  refine ⟨rfl, ?_, convert_lower_invariant, ?_, convert_gene_to_rna_canonical, by decide⟩
  · intro s hs
    simp [convert_gene_to_rna, hs]
  · intro s hl
    by_cases hs : strip s = [] <;> simp [convert_gene_to_rna, hs, hl]

/-- Claim C4 (witness). -/
theorem c4_taxonomy_mapper_total_witness :
    convert_gene_to_rna (some "  ".data) = "unknown".data
    ∧ convert_gene_to_rna (some (lower "LincRNA".data)) = convert_gene_to_rna (some "LincRNA".data)
    ∧ convert_gene_to_rna (some "mystery_type".data) = "unknown".data :=
  ⟨c4_taxonomy_mapper_total.2.1 "  ".data (by decide),
   c4_taxonomy_mapper_total.2.2.1 "LincRNA".data,
   c4_taxonomy_mapper_total.2.2.2.1 "mystery_type".data (by decide)⟩

/-- Claim C5: `parse_region` resolves in the exact priority order of the
source: an `"upstream"` substring of the lowercased name wins and yields
`"5' UTR"`; otherwise `"downstream"` yields `"3' UTR"`; otherwise the
lowercased type label is looked up (`trna`/`rrna`/`ncrna`/`non-coding`/
`pseudogene` give `"ncRNA"`, `protein_coding` gives `"CDS"`, `intergenic`
gives `"Intergenic"`), and any other type label gives `"Other"`. -/
theorem c5_parse_region_priority (gene_type gene_name : Str) :
    (strContains (lower gene_name) "upstream".data = true →
        parse_region gene_type gene_name = fiveUTR)
    ∧ (strContains (lower gene_name) "upstream".data = false →
        strContains (lower gene_name) "downstream".data = true →
        parse_region gene_type gene_name = threeUTR)
    ∧ (strContains (lower gene_name) "upstream".data = false →
        strContains (lower gene_name) "downstream".data = false →
        lower gene_type ∈ ncRNA_type_labels →
        parse_region gene_type gene_name = "ncRNA".data)
    ∧ (strContains (lower gene_name) "upstream".data = false →
        strContains (lower gene_name) "downstream".data = false →
        lower gene_type = "protein_coding".data →
        parse_region gene_type gene_name = "CDS".data)
    ∧ (strContains (lower gene_name) "upstream".data = false →
        strContains (lower gene_name) "downstream".data = false →
        lower gene_type = "intergenic".data →
        parse_region gene_type gene_name = "Intergenic".data)
    ∧ (strContains (lower gene_name) "upstream".data = false →
        strContains (lower gene_name) "downstream".data = false →
        lower gene_type ∉ ncRNA_type_labels →
        lower gene_type ≠ "protein_coding".data →
        lower gene_type ≠ "intergenic".data →
        parse_region gene_type gene_name = "Other".data) := by
  refine ⟨?_, ?_, ?_, ?_, ?_, ?_⟩
  · intro h1
    simp [parse_region, h1]
  · intro h1 h2
    simp [parse_region, h1, h2]
  · intro h1 h2 h3
    simp [parse_region, h1, h2, h3]
  · intro h1 h2 h3
    have h4 : ("protein_coding".data : Str) ∉ ncRNA_type_labels := by decide
    simp [parse_region, h1, h2, h3, h4]
  · intro h1 h2 h3
    have h4 : ("intergenic".data : Str) ∉ ncRNA_type_labels := by decide
    have h5 : ("intergenic".data : Str) ≠ "protein_coding".data := by decide
    simp [parse_region, h1, h2, h3, h4, h5]
  · intro h1 h2 h3 h4 h5
    simp [parse_region, h1, h2, h3, h4, h5]

/-- Claim C5 (witness), including the spec's mixed-case scenario
`"Protein_Coding" → CDS`. -/
theorem c5_parse_region_priority_witness :
    parse_region "tRNA".data "yhbY_upstream".data = fiveUTR
    ∧ parse_region "Protein_Coding".data "yhbY".data = "CDS".data
    ∧ parse_region "weird_type".data "yhbY".data = "Other".data :=
  ⟨(c5_parse_region_priority "tRNA".data "yhbY_upstream".data).1 (by decide),
   (c5_parse_region_priority "Protein_Coding".data "yhbY".data).2.2.2.1
     (by decide) (by decide) (by decide),
   (c5_parse_region_priority "weird_type".data "yhbY".data).2.2.2.2.2
     (by decide) (by decide) (by decide) (by decide) (by decide)⟩

/-! ### Site Loader, region variant: `process_sites_file`
(`column_chart_plotting.py` lines 31-57, identical logic in the `_style`
file lines 52-74). -/

/-- One parsed row of a sites file: the `Chr` and `Sites` cells, the RNA-id
cell (`none` = NaN), and the cells of the `*_Gene_Type` / `*_Gene_Name`
columns in column order (`none` = NaN). -/
structure RawRow where
  chr : Str
  sites : Str
  rna_id : Option Str
  gene_types : List (Option Str)
  gene_names : List (Option Str)
deriving DecidableEq

/-- A Python `dict` with `Str` keys and values, in insertion order. -/
abbrev Dict := List (Str × Str)

def dictKeys (m : Dict) : List Str := m.map Prod.fst

/-- Python dict assignment `m[k] = v`: replace in place when the key exists
(keeping insertion order), append otherwise. -/
def dictInsert (m : Dict) (k v : Str) : Dict :=
  if k ∈ dictKeys m then m.map (fun p => if p.1 = k then (k, v) else p)
  else m ++ [(k, v)]

/-- `site_id = f"{row['Chr']}:{row['Sites']}"`. -/
def siteIdOf (r : RawRow) : Str := r.chr ++ [':'] ++ r.sites

/-- The RNA id of a row: the RNA-id cell when non-null, otherwise the
synthesized fallback `site_id.split(':')[0] + '_RNA' + str(row.name)`. -/
def rnaIdOf (idx : Nat) (r : RawRow) : Str :=
  match r.rna_id with
  | some v => v
  | none => firstSegment ':' (siteIdOf r) ++ "_RNA".data ++ (Nat.repr idx).data

/-- The guard `if gene_types and gene_names:`—both lists of non-null cells
are nonempty. -/
def rowRecorded (r : RawRow) : Prop :=
  r.gene_types.filterMap id ≠ [] ∧ r.gene_names.filterMap id ≠ []

instance (r : RawRow) : Decidable (rowRecorded r) := by
  unfold rowRecorded
  infer_instance

/-- `parse_region(gene_types[0], gene_names[0])` on the non-null cells. -/
def regionOfRow (r : RawRow) : Str :=
  parse_region ((r.gene_types.filterMap id).headD []) ((r.gene_names.filterMap id).headD [])

/-- The body of the `for _, row in df.iterrows()` loop, acting on the pair
`(site_regions, site_to_rna)`; the `Nat` component is `row.name`. -/
def processStep (acc : Dict × Dict) (p : Nat × RawRow) : Dict × Dict :=
  if rowRecorded p.2 then
    (dictInsert acc.1 (siteIdOf p.2) (regionOfRow p.2),
     dictInsert acc.2 (siteIdOf p.2) (rnaIdOf p.1 p.2))
  else acc

def processIndexed (irows : List (Nat × RawRow)) : Dict × Dict :=
  irows.foldl processStep ([], [])

/-- `process_sites_file`: fold the loop body over the index-labelled rows,
returning `(site_regions, site_to_rna)`. -/
def process_sites_file (rows : List RawRow) : Dict × Dict :=
  processIndexed rows.enum


lemma dictKeys_dictInsert (m : Dict) (k v : Str) :
    dictKeys (dictInsert m k v) = if k ∈ dictKeys m then dictKeys m else dictKeys m ++ [k] := by
  unfold dictInsert
  split
  · unfold dictKeys
    rw [List.map_map]
    apply List.map_congr_left
    intro p _
    by_cases hp : p.1 = k
    · simp [hp]
    · simp [hp]
  · unfold dictKeys
    simp

lemma nodup_dictKeys_dictInsert {m : Dict} (k v : Str) (h : (dictKeys m).Nodup) :
    (dictKeys (dictInsert m k v)).Nodup := by
  rw [dictKeys_dictInsert]
  split
  · exact h
  · next hk =>
    rw [List.nodup_append]
    refine ⟨h, List.nodup_singleton k, ?_⟩
    intro a ha hak
    rw [List.mem_singleton] at hak
    exact hk (hak ▸ ha)

lemma lookup_map_replace (m : Dict) (k v : Str) (h : k ∈ dictKeys m) :
    (m.map (fun p => if p.1 = k then (k, v) else p)).lookup k = some v := by
  induction m with
  | nil => simp [dictKeys] at h
  | cons q t ih =>
    obtain ⟨qk, qv⟩ := q
    by_cases hq : qk = k
    · simp [hq]
    · have h' : k ∈ dictKeys t := by
        rcases (by simpa [dictKeys] using h : k = qk ∨ k ∈ t.map Prod.fst) with h1 | h1
        · exact absurd h1.symm hq
        · simpa [dictKeys] using h1
      have hne : (k == qk) = false := by
        simpa using fun hk => hq hk.symm
      simp only [List.map_cons, if_neg hq, List.lookup_cons, hne]
      exact ih h'

lemma lookup_map_replace_ne (m : Dict) (k k' v : Str) (h : k' ≠ k) :
    (m.map (fun p => if p.1 = k then (k, v) else p)).lookup k' = m.lookup k' := by
  induction m with
  | nil => simp
  | cons q t ih =>
    obtain ⟨qk, qv⟩ := q
    by_cases hq : qk = k
    · have hne : (k' == k) = false := by simpa using h
      have hne2 : (k' == qk) = false := by simpa [hq] using h
      simp [hq, List.lookup_cons, hne, hne2, ih]
    · by_cases hq' : k' = qk
      · simp only [List.map_cons, if_neg hq]
        simp [List.lookup_cons, hq']
      · have hne2 : (k' == qk) = false := by simpa using hq'
        simp only [List.map_cons, if_neg hq, List.lookup_cons, hne2]
        exact ih

lemma lookup_dictInsert_self (m : Dict) (k v : Str) :
    (dictInsert m k v).lookup k = some v := by
  unfold dictInsert
  split
  · next h => exact lookup_map_replace m k v h
  · next h =>
    have hnone : m.lookup k = none := by
      rw [List.lookup_eq_none_iff]
      intro p hp
      simp only [bne_iff_ne, ne_eq]
      intro hk
      exact h (by simpa [dictKeys, hk] using List.mem_map_of_mem Prod.fst hp)
    rw [List.lookup_append, hnone]
    simp

lemma lookup_dictInsert_ne (m : Dict) (k k' v : Str) (h : k' ≠ k) :
    (dictInsert m k v).lookup k' = m.lookup k' := by
  unfold dictInsert
  split
  · exact lookup_map_replace_ne m k k' v h
  · rw [List.lookup_append]
    have hne : (k' == k) = false := by simpa using h
    have hsing : ([(k, v)] : Dict).lookup k' = none := by
      simp [List.lookup_cons, hne]
    rw [hsing]
    cases m.lookup k' <;> simp

lemma mem_dictKeys_dictInsert (m : Dict) (k v k' : Str) :
    k' ∈ dictKeys (dictInsert m k v) ↔ k' ∈ dictKeys m ∨ k' = k := by
  rw [dictKeys_dictInsert]
  split
  · next h =>
    constructor
    · exact Or.inl
    · rintro (h' | rfl)
      · exact h'
      · exact h
  · simp

lemma foldl_keys_lockstep (irows : List (Nat × RawRow)) (acc : Dict × Dict)
    (h : dictKeys acc.1 = dictKeys acc.2) :
    dictKeys (irows.foldl processStep acc).1 = dictKeys (irows.foldl processStep acc).2 := by
  induction irows generalizing acc with
  | nil => exact h
  | cons p t ih =>
    rw [List.foldl_cons]
    apply ih
    unfold processStep
    split
    · simp only
      rw [dictKeys_dictInsert, dictKeys_dictInsert, h]
    · exact h

lemma foldl_keys_nodup (irows : List (Nat × RawRow)) (acc : Dict × Dict)
    (h1 : (dictKeys acc.1).Nodup) (h2 : (dictKeys acc.2).Nodup) :
    (dictKeys (irows.foldl processStep acc).1).Nodup ∧
    (dictKeys (irows.foldl processStep acc).2).Nodup := by
  induction irows generalizing acc with
  | nil => exact ⟨h1, h2⟩
  | cons p t ih =>
    rw [List.foldl_cons]
    apply ih
    · unfold processStep
      split
      · exact nodup_dictKeys_dictInsert _ _ h1
      · exact h1
    · unfold processStep
      split
      · exact nodup_dictKeys_dictInsert _ _ h2
      · exact h2

lemma foldl_keys_mem (irows : List (Nat × RawRow)) (acc : Dict × Dict) (k : Str) :
    k ∈ dictKeys (irows.foldl processStep acc).1 ↔
      k ∈ dictKeys acc.1 ∨ ∃ q ∈ irows, rowRecorded q.2 ∧ siteIdOf q.2 = k := by
  induction irows generalizing acc with
  | nil => simp
  | cons p t ih =>
    rw [List.foldl_cons, ih]
    have hstep : k ∈ dictKeys (processStep acc p).1 ↔
        k ∈ dictKeys acc.1 ∨ (rowRecorded p.2 ∧ siteIdOf p.2 = k) := by
      unfold processStep
      split
      · next hrec =>
        rw [mem_dictKeys_dictInsert]
        constructor
        · rintro (h | rfl)
          · exact Or.inl h
          · exact Or.inr ⟨hrec, rfl⟩
        · rintro (h | ⟨-, rfl⟩)
          · exact Or.inl h
          · exact Or.inr rfl
      · next hrec =>
        constructor
        · exact Or.inl
        · rintro (h | ⟨hr, -⟩)
          · exact h
          · exact absurd hr hrec
    rw [hstep]
    simp only [List.mem_cons]
    constructor
    · rintro ((h | h) | ⟨q, hq, hrec, hsid⟩)
      · exact Or.inl h
      · exact Or.inr ⟨p, Or.inl rfl, h⟩
      · exact Or.inr ⟨q, Or.inr hq, hrec, hsid⟩
    · rintro (h | ⟨q, rfl | hq, hrec, hsid⟩)
      · exact Or.inl (Or.inl h)
      · exact Or.inl (Or.inr ⟨hrec, hsid⟩)
      · exact Or.inr ⟨q, hq, hrec, hsid⟩

lemma foldl_lookup_untouched (post : List (Nat × RawRow)) (acc : Dict × Dict) (key : Str)
    (h : ∀ q ∈ post, rowRecorded q.2 → siteIdOf q.2 ≠ key) :
    (post.foldl processStep acc).1.lookup key = acc.1.lookup key ∧
    (post.foldl processStep acc).2.lookup key = acc.2.lookup key := by
  induction post generalizing acc with
  | nil => exact ⟨rfl, rfl⟩
  | cons p t ih =>
    rw [List.foldl_cons]
    have hstep : (processStep acc p).1.lookup key = acc.1.lookup key ∧
        (processStep acc p).2.lookup key = acc.2.lookup key := by
      unfold processStep
      split
      · next hrec =>
        have hne : key ≠ siteIdOf p.2 := fun hk => h p (List.mem_cons_self p t) hrec hk.symm
        exact ⟨lookup_dictInsert_ne _ _ _ _ hne, lookup_dictInsert_ne _ _ _ _ hne⟩
      · exact ⟨rfl, rfl⟩
    have htail := ih (processStep acc p) (fun q hq => h q (List.mem_cons_of_mem p hq))
    exact ⟨htail.1.trans hstep.1, htail.2.trans hstep.2⟩

lemma exists_enum_snd {α : Type} (l : List α) (P : α → Prop) :
    (∃ q ∈ l.enum, P q.2) ↔ ∃ r ∈ l, P r := by
  rw [List.exists_mem_enum, List.exists_mem_iff_getElem]

/-- Claim C10: `process_sites_file` returns two maps with exactly the same
key list; the key lists contain no duplicate, so each map holds at most one
entry per composite site identifier; a key is present exactly when some row
with non-null gene-type and gene-name cells produced it (so a row whose
gene-type cells are all null or whose gene-name cells are all null is
recorded in neither map); and when several recorded rows share one site
identifier the maps hold the values of the last such row. -/
theorem c10_process_sites_file_invariants :
    (∀ rows : List RawRow,
        dictKeys (process_sites_file rows).1 = dictKeys (process_sites_file rows).2)
    ∧ (∀ rows : List RawRow,
        (dictKeys (process_sites_file rows).1).Nodup ∧
        (dictKeys (process_sites_file rows).2).Nodup)
    ∧ (∀ (rows : List RawRow) (k : Str),
        k ∈ dictKeys (process_sites_file rows).1 ↔
          ∃ r ∈ rows, rowRecorded r ∧ siteIdOf r = k)
    ∧ (∀ (pre post : List (Nat × RawRow)) (i : Nat) (r : RawRow),
        rowRecorded r →
        (∀ q ∈ post, rowRecorded q.2 → siteIdOf q.2 ≠ siteIdOf r) →
        (processIndexed (pre ++ (i, r) :: post)).1.lookup (siteIdOf r) = some (regionOfRow r)
        ∧ (processIndexed (pre ++ (i, r) :: post)).2.lookup (siteIdOf r) = some (rnaIdOf i r)) := by
  refine ⟨?_, ?_, ?_, ?_⟩
  · intro rows
    exact foldl_keys_lockstep rows.enum ([], []) rfl
  · intro rows
    exact foldl_keys_nodup rows.enum ([], []) List.nodup_nil List.nodup_nil
  · intro rows k
    rw [process_sites_file, processIndexed, foldl_keys_mem]
    simp only [dictKeys, List.map_nil, List.not_mem_nil, false_or]
    exact exists_enum_snd rows (fun r => rowRecorded r ∧ siteIdOf r = k)
  · intro pre post i r hrec hpost
    have hs : processStep (pre.foldl processStep ([], [])) (i, r) =
        (dictInsert (pre.foldl processStep ([], [])).1 (siteIdOf r) (regionOfRow r),
         dictInsert (pre.foldl processStep ([], [])).2 (siteIdOf r) (rnaIdOf i r)) := by
      unfold processStep
      rw [if_pos hrec]
    rw [processIndexed, List.foldl_append, List.foldl_cons, hs]
    have hu := foldl_lookup_untouched post
      (dictInsert (pre.foldl processStep ([], [])).1 (siteIdOf r) (regionOfRow r),
       dictInsert (pre.foldl processStep ([], [])).2 (siteIdOf r) (rnaIdOf i r))
      (siteIdOf r) hpost
    exact ⟨hu.1.trans (lookup_dictInsert_self _ _ _),
           hu.2.trans (lookup_dictInsert_self _ _ _)⟩

/-- A sample row on transcript `T1` with a `trna` gene type. -/
def sampleRowA : RawRow :=
  ⟨"c".data, "10".data, some "T1".data, [some "trna".data], [some "geneA".data]⟩

/-- A second sample row with the same composite site id `c:10` as
`sampleRowA` but different region and RNA id. -/
def sampleRowB : RawRow :=
  ⟨"c".data, "10".data, some "T2".data, [some "protein_coding".data], [some "geneB".data]⟩

/-- Claim C10 (witness): with two recorded rows sharing the site id `c:10`,
both maps end up holding the later row's values. -/
theorem c10_process_sites_file_invariants_witness :
    rowRecorded sampleRowB
    ∧ (process_sites_file [sampleRowA, sampleRowB]).1.lookup (siteIdOf sampleRowB)
        = some (regionOfRow sampleRowB)
    ∧ (process_sites_file [sampleRowA, sampleRowB]).2.lookup (siteIdOf sampleRowB)
        = some (rnaIdOf 1 sampleRowB) := by
  have h := c10_process_sites_file_invariants.2.2.2 [(0, sampleRowA)] [] 1 sampleRowB
    (by decide) (by simp)
  exact ⟨by decide, h.1, h.2⟩

/-! ### Set Reconciler, region variant
(`main` of `column_chart_plotting.py`, lines 60-125; identical logic in the
`_style` file lines 77-134). -/

/-- A site collection as produced by `process_sites_file`: the set of
composite site identifiers, and the region / RNA-id valuations of the two
dictionaries (which share this key set, see C10). -/
structure SiteMap where
  sites : Finset Str
  region : Str → Str
  rna : Str → Str

/-- `set(sites_X_rna.values())`: the RNA molecules a condition expresses. -/
def rnaSet (M : SiteMap) : Finset Str := M.sites.image M.rna

/-- `shared_rna = rna_37 & rna_45`. -/
def shared_rna (A B : SiteMap) : Finset Str := rnaSet A ∩ rnaSet B

/-- `unique_rna_37 = rna_37 - rna_45` (swap the arguments for `unique_rna_45`). -/
def unique_rna (A B : SiteMap) : Finset Str := rnaSet A \ rnaSet B

/-- `shared_site_37 = {s for s in sites_37_regions if sites_37_rna[s] in shared_rna}`
(swap the arguments for `shared_site_45`). -/
def shared_site (A B : SiteMap) : Finset Str :=
  A.sites.filter (fun s => A.rna s ∈ shared_rna A B)

/-- The position component `s.split(':')[-1]` used by the matching loop. -/
def posOf (s : Str) : Str := lastSegment ':' s

/-- The double loop filling `shared_mod_sites`: `s37` is added when some `s45`
matches it (equal position suffix and equal region), and each matching `s45`
is added as well. -/
def shared_mod_sites (A B : SiteMap) : Finset Str :=
  (shared_site A B).filter (fun s37 => ∃ s45 ∈ shared_site B A,
      posOf s45 = posOf s37 ∧ A.region s37 = B.region s45)
  ∪ (shared_site B A).filter (fun s45 => ∃ s37 ∈ shared_site A B,
      posOf s45 = posOf s37 ∧ A.region s37 = B.region s45)

/-- `sites_37_regions.get(s, '')`: region lookup with empty-string default. -/
def regionGet (M : SiteMap) (s : Str) : Str := if s ∈ M.sites then M.region s else []

/-- `mod_unique37` count for one region. -/
def layer_mod_unique37 (A B : SiteMap) (r : Str) : ℕ :=
  (A.sites.filter (fun s => A.region s = r ∧ A.rna s ∈ unique_rna A B)).card

/-- `unique_37` count for one region. -/
def layer_unique_37 (A B : SiteMap) (r : Str) : ℕ :=
  ((shared_site A B).filter (fun s => A.region s = r ∧ s ∉ shared_mod_sites A B)).card

/-- `shared` count for one region: note the lookup through the 37-side region
map with `''` default, applied also to identifiers added from the 45 side. -/
def layer_shared (A B : SiteMap) (r : Str) : ℕ :=
  ((shared_mod_sites A B).filter (fun s => regionGet A s = r)).card

/-- `unique_45` count for one region. -/
def layer_unique_45 (A B : SiteMap) (r : Str) : ℕ :=
  ((shared_site B A).filter (fun s => B.region s = r ∧ s ∉ shared_mod_sites A B)).card

/-- `mod_unique45` count for one region. -/
def layer_mod_unique45 (A B : SiteMap) (r : Str) : ℕ :=
  (B.sites.filter (fun s => B.region s = r ∧ B.rna s ∈ unique_rna B A)).card

/-- The sum of the five stratum counts of one region. -/
def strata_sum (A B : SiteMap) (r : Str) : ℕ :=
  layer_mod_unique37 A B r + layer_unique_37 A B r + layer_shared A B r +
    layer_unique_45 A B r + layer_mod_unique45 A B r

/-- Number of sites of one condition carrying a given region. -/
def region_count (M : SiteMap) (r : Str) : ℕ :=
  (M.sites.filter (fun s => M.region s = r)).card

/-- Number of distinct site identifiers of a given region observed across the
two conditions. -/
def region_union_count (A B : SiteMap) (r : Str) : ℕ :=
  ((A.sites.filter (fun s => A.region s = r)) ∪ (B.sites.filter (fun s => B.region s = r))).card

/-- A-side shared-transcript candidates of region `r` that entered the
shared-site set. -/
def layer_matched37 (A B : SiteMap) (r : Str) : ℕ :=
  ((shared_site A B).filter (fun s => A.region s = r ∧ s ∈ shared_mod_sites A B)).card

/-- B-side shared-transcript candidates of region `r` that entered the
shared-site set. -/
def layer_matched45 (A B : SiteMap) (r : Str) : ℕ :=
  ((shared_site B A).filter (fun s => B.region s = r ∧ s ∈ shared_mod_sites A B)).card

lemma shared_rna_comm (A B : SiteMap) : shared_rna B A = shared_rna A B := by
  unfold shared_rna
  exact Finset.inter_comm _ _

lemma shared_mod_sites_comm (A B : SiteMap) : shared_mod_sites B A = shared_mod_sites A B := by
  ext s
  simp only [shared_mod_sites, Finset.mem_union, Finset.mem_filter]
  constructor
  · rintro (⟨hs, t, ht, hp, hr⟩ | ⟨hs, t, ht, hp, hr⟩)
    · exact Or.inr ⟨hs, t, ht, hp.symm, hr.symm⟩
    · exact Or.inl ⟨hs, t, ht, hp.symm, hr.symm⟩
  · rintro (⟨hs, t, ht, hp, hr⟩ | ⟨hs, t, ht, hp, hr⟩)
    · exact Or.inr ⟨hs, t, ht, hp.symm, hr.symm⟩
    · exact Or.inl ⟨hs, t, ht, hp.symm, hr.symm⟩

/-- Claim C2: `shared_rna`, `unique_rna_37`, `unique_rna_45` are pairwise
disjoint and their union is `transcriptsOf(A) ∪ transcriptsOf(B)`. -/
theorem c2_transcript_partition (A B : SiteMap) :
    shared_rna A B ∩ unique_rna A B = ∅
    ∧ shared_rna A B ∩ unique_rna B A = ∅
    ∧ unique_rna A B ∩ unique_rna B A = ∅
    ∧ shared_rna A B ∪ unique_rna A B ∪ unique_rna B A = rnaSet A ∪ rnaSet B := by
  refine ⟨?_, ?_, ?_, ?_⟩ <;>
  · ext x
    simp only [shared_rna, unique_rna, Finset.mem_inter, Finset.mem_sdiff,
      Finset.mem_union, Finset.not_mem_empty, iff_false, not_and]
    tauto

/-- Claim C3: a pair of shared-transcript candidate sites (one per condition)
is recorded exactly when the position components of their identifiers are
equal as literal strings and their resolved regions are equal; both members
of every matching pair enter the shared-site set; and only shared-transcript
candidates ever appear in it. -/
theorem c3_shared_site_matching (A B : SiteMap) :
    (∀ s37 ∈ shared_site A B, ∀ s45 ∈ shared_site B A,
        posOf s45 = posOf s37 → A.region s37 = B.region s45 →
        s37 ∈ shared_mod_sites A B ∧ s45 ∈ shared_mod_sites A B)
    ∧ (∀ s : Str, s ∈ shared_mod_sites A B ↔
        ((s ∈ shared_site A B ∧ ∃ s45 ∈ shared_site B A,
            posOf s45 = posOf s ∧ A.region s = B.region s45)
        ∨ (s ∈ shared_site B A ∧ ∃ s37 ∈ shared_site A B,
            posOf s = posOf s37 ∧ A.region s37 = B.region s)))
    ∧ (∀ s ∈ A.sites, A.rna s ∉ shared_rna A B → s ∉ B.sites →
        s ∉ shared_mod_sites A B) := by
  refine ⟨?_, ?_, ?_⟩
  · intro s37 h37 s45 h45 hp hr
    constructor
    · exact Finset.mem_union_left _ (Finset.mem_filter.mpr ⟨h37, s45, h45, hp, hr⟩)
    · exact Finset.mem_union_right _ (Finset.mem_filter.mpr ⟨h45, s37, h37, hp, hr⟩)
  · intro s
    simp only [shared_mod_sites, Finset.mem_union, Finset.mem_filter]
  · intro s hs hrna hsB
    simp only [shared_mod_sites, Finset.mem_union, Finset.mem_filter, shared_site]
    rintro (⟨⟨-, hmem⟩, -⟩ | ⟨⟨hmem, -⟩, -⟩)
    · exact hrna hmem
    · exact hsB hmem

/-- Condition-A map of the worked example: one site `c:10` on transcript `T2`
in region `CDS`. -/
def mapExA : SiteMap := ⟨{"c:10".data}, fun _ => "CDS".data, fun _ => "T2".data⟩

/-- Condition-B map of the worked example: one site `d:10` (same position
`10`, different chromosome) on the shared transcript `T2`, region `CDS`. -/
def mapExB : SiteMap := ⟨{"d:10".data}, fun _ => "CDS".data, fun _ => "T2".data⟩

/-- Claim C3 (witness): in the worked example, `c:10` and `d:10` have equal
position components and equal regions, and both enter the shared set. -/
theorem c3_shared_site_matching_witness :
    "c:10".data ∈ shared_mod_sites mapExA mapExB
    ∧ "d:10".data ∈ shared_mod_sites mapExA mapExB :=
  (c3_shared_site_matching mapExA mapExB).1 "c:10".data (by decide) "d:10".data
    (by decide) (by decide) (by decide)

lemma mem_unique_rna_iff {A B : SiteMap} {s : Str} (hs : s ∈ A.sites) :
    A.rna s ∈ unique_rna A B ↔ A.rna s ∉ shared_rna A B := by
  have hmem : A.rna s ∈ rnaSet A := Finset.mem_image_of_mem A.rna hs
  unfold unique_rna shared_rna
  simp only [Finset.mem_sdiff, Finset.mem_inter, hmem, true_and, not_and]

lemma strata_partition_A (A B : SiteMap) (r : Str) :
    layer_mod_unique37 A B r + layer_unique_37 A B r + layer_matched37 A B r
      = region_count A r := by
  classical
  have h2 : (A.sites.filter (fun s => A.region s = r)).filter
        (fun s => ¬ A.rna s ∈ shared_rna A B)
      = A.sites.filter (fun s => A.region s = r ∧ A.rna s ∈ unique_rna A B) := by
    ext s
    simp only [Finset.mem_filter]
    constructor
    · rintro ⟨⟨hs, hr⟩, hn⟩
      exact ⟨hs, hr, (mem_unique_rna_iff hs).mpr hn⟩
    · rintro ⟨hs, hr, hu⟩
      exact ⟨⟨hs, hr⟩, (mem_unique_rna_iff hs).mp hu⟩
  have h3 : (A.sites.filter (fun s => A.region s = r)).filter
        (fun s => A.rna s ∈ shared_rna A B)
      = (shared_site A B).filter (fun s => A.region s = r) := by
    ext s
    simp only [Finset.mem_filter, shared_site]
    tauto
  have h4 : layer_matched37 A B r + layer_unique_37 A B r
      = ((shared_site A B).filter (fun s => A.region s = r)).card := by
    unfold layer_matched37 layer_unique_37
    have heq1 : (shared_site A B).filter (fun s => A.region s = r ∧ s ∈ shared_mod_sites A B)
        = ((shared_site A B).filter (fun s => A.region s = r)).filter
            (fun s => s ∈ shared_mod_sites A B) := by
      rw [Finset.filter_filter]
    have heq2 : (shared_site A B).filter (fun s => A.region s = r ∧ s ∉ shared_mod_sites A B)
        = ((shared_site A B).filter (fun s => A.region s = r)).filter
            (fun s => ¬ s ∈ shared_mod_sites A B) := by
      rw [Finset.filter_filter]
    rw [heq1, heq2]
    exact Finset.filter_card_add_filter_neg_card_eq_card (fun s => s ∈ shared_mod_sites A B)
  have e : region_count A r
      = ((shared_site A B).filter (fun s => A.region s = r)).card + layer_mod_unique37 A B r := by
    unfold region_count layer_mod_unique37
    rw [← h2, ← h3]
    exact (Finset.filter_card_add_filter_neg_card_eq_card
      (fun s => A.rna s ∈ shared_rna A B)).symm
  rw [e, ← h4]
  omega

lemma layer_mod_unique45_eq (A B : SiteMap) (r : Str) :
    layer_mod_unique45 A B r = layer_mod_unique37 B A r := rfl

lemma layer_unique_45_eq (A B : SiteMap) (r : Str) :
    layer_unique_45 A B r = layer_unique_37 B A r := by
  unfold layer_unique_45 layer_unique_37
  rw [shared_mod_sites_comm]

lemma layer_matched45_eq (A B : SiteMap) (r : Str) :
    layer_matched45 A B r = layer_matched37 B A r := by
  unfold layer_matched45 layer_matched37
  rw [shared_mod_sites_comm]

/-- Claim C1 (counterexample): in the worked example the two conditions hold
one CDS site each (`c:10` and `d:10`); the matching loop pairs them (equal
position suffix `10`, equal region), yet the five stratum counts sum to `1`
while the number of CDS sites observed across both conditions is `2` under
either counting (distinct identifiers, or per-condition sites): the member
`d:10` of the shared set is dropped by the `sites_37_regions.get(s, '')`
lookup and counted nowhere. -/
theorem c1_strata_sum_counterexample :
    strata_sum mapExA mapExB "CDS".data = 1
    ∧ region_union_count mapExA mapExB "CDS".data = 2
    ∧ region_count mapExA "CDS".data + region_count mapExB "CDS".data = 2 := by
  decide

/-- Claim C1 (amended): per category, each condition's sites split exactly
into its three strata (transcript-unique, candidate-not-shared, matched):
`mod_unique37 + unique_37 + matchedA = |A_r|` and symmetrically for B.
Consequently the five stratum counts sum to the per-condition totals up to
the difference between the `shared` stratum (computed through the A-side
region lookup with `''` default) and the matched counts of the two sides —
not, in general, to the total number of sites of the category. -/
theorem c1_strata_partition (A B : SiteMap) (r : Str) :
    (layer_mod_unique37 A B r + layer_unique_37 A B r + layer_matched37 A B r
        = region_count A r)
    ∧ (layer_mod_unique45 A B r + layer_unique_45 A B r + layer_matched45 A B r
        = region_count B r)
    ∧ (strata_sum A B r + layer_matched37 A B r + layer_matched45 A B r
        = region_count A r + region_count B r + layer_shared A B r) := by
  have hA := strata_partition_A A B r
  have hB := strata_partition_A B A r
  rw [← layer_mod_unique45_eq, ← layer_unique_45_eq, ← layer_matched45_eq] at hB
  refine ⟨hA, hB, ?_⟩
  unfold strata_sum
  omega

/-! ### Normalizer
(`column_chart_plotting.py` lines 127-137; the same formula, without the
zero guard and over per-group counts with necessarily positive totals,
appears in `plot_rna_distribution` of the depletion scripts). -/

/-- Given the stratum counts of one grouping key, each count maps to
`count / total * 100` (`max_height = 100`), and to `0` when the total is
zero.  Division is modeled as exact rational arithmetic. -/
def normalize_layers (counts : List ℕ) : List ℚ :=
  counts.map (fun (c : ℕ) => if counts.sum = 0 then (0 : ℚ) else ((c : ℚ) / (counts.sum : ℚ)) * 100)

lemma sum_map_cast_mul (l : List ℕ) (k : ℚ) :
    (l.map (fun (c : ℕ) => (c : ℚ) * k)).sum = (l.sum : ℚ) * k := by
  induction l with
  | nil => simp
  | cons a t ih =>
    simp only [List.map_cons, List.sum_cons, ih, Nat.cast_add]
    ring

/-- Claim C6: every percentage is `100 × count / total` for its grouping
key; with zero total every percentage is exactly `0` (never undefined), and
with nonzero total the percentages sum to exactly `100`, hence within the
`0.01` absolute tolerance. -/
theorem c6_normalizer_percentages (counts : List ℕ) :
    (counts.sum = 0 → ∀ q ∈ normalize_layers counts, q = 0)
    ∧ (counts.sum ≠ 0 →
        (normalize_layers counts).sum = 100
        ∧ |(normalize_layers counts).sum - 100| ≤ 1 / 100) := by
  constructor
  · intro h0 q hq
    unfold normalize_layers at hq
    rw [List.mem_map] at hq
    obtain ⟨c, -, rfl⟩ := hq
    rw [if_pos h0]
  · intro hne
    have hT : ((counts.sum : ℚ)) ≠ 0 := Nat.cast_ne_zero.mpr hne
    have hsum : (normalize_layers counts).sum = 100 := by
      unfold normalize_layers
      have he : (fun (c : ℕ) => if counts.sum = 0 then (0 : ℚ) else ((c : ℚ) / (counts.sum : ℚ)) * 100)
          = fun (c : ℕ) => (c : ℚ) * (100 / (counts.sum : ℚ)) := by
        funext c
        rw [if_neg hne]
        ring
      rw [he, sum_map_cast_mul, mul_comm, div_mul_eq_mul_div]
      exact mul_div_cancel_right₀ 100 hT
    refine ⟨hsum, ?_⟩
    rw [hsum]
    norm_num

/-- Claim C6 (witness). -/
theorem c6_normalizer_percentages_witness :
    (normalize_layers [2, 3, 5]).sum = 100
    ∧ ∀ q ∈ normalize_layers [0, 0, 0, 0, 0], q = 0 :=
  ⟨((c6_normalizer_percentages [2, 3, 5]).2 (by decide)).1,
   (c6_normalizer_percentages [0, 0, 0, 0, 0]).1 (by decide)⟩

/-! ### Group Aggregator, depletion variant
(`group_proportion_style.py` lines 117-137). -/

/-- One grouping rule: folder role, filename-prefix list, target group. -/
abbrev GroupRule := Str × List Str × Str

/-- The `grouping_rules` constant of `group_proportion_style.py`. -/
def grouping_rules : List GroupRule :=
  [ ("removed".data, ["m6A_03".data], "OD600=0.3(-rRNA)".data)
  , ("removed".data, ["m6A_1".data], "OD600=1(-rRNA)".data)
  , ("total".data, ["m6A_1".data, "m6A_2".data, "m6A_3".data, "m6A_4".data], "OD600=0.3".data)
  , ("total".data, ["m6A_5".data, "m6A_6".data, "m6A_7".data, "m6A_8".data], "OD600=1".data) ]

/-- Whether one rule accepts a file stem under a folder role: the rule's
role equals the folder role and some prefix of the rule starts the stem. -/
def ruleMatches (rule : GroupRule) (file_name folder_type : Str) : Prop :=
  rule.1 = folder_type ∧ rule.2.1.any (fun p => p.isPrefixOf file_name) = true

instance (rule : GroupRule) (file_name folder_type : Str) :
    Decidable (ruleMatches rule file_name folder_type) := by
  unfold ruleMatches
  infer_instance

/-- `get_group_name` over an explicit rule list: scan in order, return the
first accepting rule's target; `none` models the `ValueError` raised when no
rule matches. -/
def get_group_name_in : List GroupRule → Str → Str → Option Str
  | [], _, _ => none
  | rule :: rest, file_name, folder_type =>
    if ruleMatches rule file_name folder_type then some rule.2.2
    else get_group_name_in rest file_name folder_type

/-- `get_group_name(file_name, folder_type)`, closing over `grouping_rules`. -/
def get_group_name (file_name folder_type : Str) : Option Str :=
  get_group_name_in grouping_rules file_name folder_type

/-- Claim C7: the scan respects rule order — whenever no rule before `rule`
accepts the stem and `rule` accepts it, the result is `rule`'s target group
(first match wins) — and the stem `m6A_03_rep1` under role `removed` is
assigned the group `OD600=0.3(-rRNA)`. -/
theorem c7_group_rules_first_match :
    (∀ (pre post : List GroupRule) (rule : GroupRule) (file_name folder_type : Str),
        (∀ r ∈ pre, ¬ ruleMatches r file_name folder_type) →
        ruleMatches rule file_name folder_type →
        get_group_name_in (pre ++ rule :: post) file_name folder_type = some rule.2.2)
    ∧ get_group_name "m6A_03_rep1".data "removed".data = some "OD600=0.3(-rRNA)".data := by
  constructor
  · intro pre post rule fn ft hpre hrule
    induction pre with
    | nil => simp [get_group_name_in, hrule]
    | cons q t ih =>
      have hq : ¬ ruleMatches q fn ft := hpre q (List.mem_cons_self q t)
      simp only [List.cons_append, get_group_name_in, if_neg hq]
      exact ih (fun r hr => hpre r (List.mem_cons_of_mem q hr))
  · decide

/-- Claim C7 (witness): under role `removed`, the stem `m6A_1_rep2` misses
the first rule's prefix `m6A_03`, is accepted by the second rule, and gets
its target even though later rules also carry the prefix `m6A_1`. -/
theorem c7_group_rules_first_match_witness :
    get_group_name_in grouping_rules "m6A_1_rep2".data "removed".data
      = some "OD600=1(-rRNA)".data :=
  c7_group_rules_first_match.1
    [("removed".data, ["m6A_03".data], "OD600=0.3(-rRNA)".data)]
    [ ("total".data, ["m6A_1".data, "m6A_2".data, "m6A_3".data, "m6A_4".data], "OD600=0.3".data)
    , ("total".data, ["m6A_5".data, "m6A_6".data, "m6A_7".data, "m6A_8".data], "OD600=1".data) ]
    ("removed".data, ["m6A_1".data], "OD600=1(-rRNA)".data)
    "m6A_1_rep2".data "removed".data (by decide) (by decide)

/-! ### Site Loader, depletion variant: `load_samples`
(`group_proportion_style.py` lines 143-213 and
`FDR_proportion_plotting.py` lines 41-93). -/

/-- A sample file as seen by `load_samples`: its stem, its header columns,
and its rows, each row holding the `Sites` cell and the `Gene_Type` cell
(`none` = NaN). -/
structure SampleFile where
  stem : Str
  header : List Str
  rows : List (Str × Option Str)
deriving DecidableEq

/-- The keys of `column_mapping` (identical in both depletion scripts):
the required columns `Sites` and `Gene_Type`. -/
def column_mapping_keys : List Str := ["Sites".data, "Gene_Type".data]

/-- `missing_cols = [col for col in column_mapping.keys() if col not in df.columns]`. -/
def missingColsOf (f : SampleFile) : List Str :=
  column_mapping_keys.filter (fun c => c ∉ f.header)

/-- The fatal errors of the loading stage: a missing-column `ValueError`
carrying the offending file and the missing columns, and the final
no-valid-files `ValueError`. -/
inductive LoadErr where
  | missingColumns (file : Str) (cols : List Str)
  | noValidFiles
deriving DecidableEq

/-- One loaded record: site cell, converted RNA type, group label. -/
abbrev LoadedRow := Str × Str × Str

def allowed_rna_types : List Str := ["mRNA".data, "ncRNA".data, "rRNA".data]

/-- Row conversion and filtering of `group_proportion_style.load_samples`
(lines 180-196): keep the rows whose converted type is mRNA/ncRNA/rRNA
(`INCLUDE_UNKNOWN_TYPES = False`; when every row converts into that set the
Python code skips the filter, which is then the identity, so the
unconditional filter is faithful), and tag each with the group. -/
def process_file_rows (rows : List (Str × Option Str)) (group : Str) : List LoadedRow :=
  (rows.filter (fun row => convert_gene_to_rna row.2 ∈ allowed_rna_types)).map
    (fun row => (row.1, convert_gene_to_rna row.2, group))

/-- `group_data[target_group].append(df)`, with dict insertion order. -/
def addToGroup (gd : List (Str × List LoadedRow)) (g : Str) (rows : List LoadedRow) :
    List (Str × List LoadedRow) :=
  if gd.any (fun p => p.1 == g) then
    gd.map (fun p => if p.1 = g then (p.1, p.2 ++ rows) else p)
  else gd ++ [(g, rows)]

/-- The per-file loop of `group_proportion_style.load_samples` (lines
160-200): a file matching no rule is skipped (the caught `ValueError`);
a matched file with missing required columns raises; otherwise its
converted rows accumulate into its group. -/
def loadLoop : List SampleFile → Str → List (Str × List LoadedRow) →
    Except LoadErr (List (Str × List LoadedRow))
  | [], _, gd => .ok gd
  | f :: rest, folder_type, gd =>
    match get_group_name f.stem folder_type with
    | none => loadLoop rest folder_type gd
    | some g =>
      if missingColsOf f = [] then
        loadLoop rest folder_type (addToGroup gd g (process_file_rows f.rows g))
      else .error (.missingColumns f.stem (missingColsOf f))

/-- `load_samples(folder, folder_type)` of `group_proportion_style.py`: run
the loop; raise when no file matched any rule; else concatenate the
per-group data in group insertion order. -/
def load_samples (files : List SampleFile) (folder_type : Str) :
    Except LoadErr (List LoadedRow) :=
  match loadLoop files folder_type [] with
  | .error e => .error e
  | .ok gd => if gd = [] then .error .noValidFiles else .ok ((gd.map Prod.snd).flatten)

/-- Row conversion of `FDR_proportion_plotting.load_samples` (lines 72-85):
keep the rows whose raw label is a key of its table (a NaN cell, modeled by
the `[]` default, is never a key), then apply the
`gene_type_to_rna.get(x, x)` lambda. -/
def fdr_process_rows (rows : List (Str × Option Str)) : List (Str × Str) :=
  (rows.filter (fun row => row.2.getD [] ∈ fdr_gene_type_to_rna.map Prod.fst)).map
    (fun row => (row.1, fdr_convert (row.2.getD [])))

/-- The per-file loop of `FDR_proportion_plotting.load_samples` (lines
57-93): no grouping skip — every file's header is checked; missing required
columns raise; otherwise the converted rows accumulate in file order. -/
def fdr_load_samples : List SampleFile → Except LoadErr (List (Str × Str))
  | [] => .ok []
  | f :: rest =>
    if missingColsOf f = [] then
      match fdr_load_samples rest with
      | .error e => .error e
      | .ok tail => .ok (fdr_process_rows f.rows ++ tail)
    else .error (.missingColumns f.stem (missingColsOf f))

lemma loadLoop_skip (pre post : List SampleFile) (f : SampleFile) (ft : Str)
    (gd : List (Str × List LoadedRow)) (h : get_group_name f.stem ft = none) :
    loadLoop (pre ++ f :: post) ft gd = loadLoop (pre ++ post) ft gd := by
  induction pre generalizing gd with
  | nil =>
    simp only [List.nil_append, loadLoop, h]
  | cons q t ih =>
    simp only [List.cons_append, loadLoop]
    cases hq : get_group_name q.stem ft with
    | none => exact ih gd
    | some g =>
      by_cases hm : missingColsOf q = []
      · simp only [if_pos hm]
        exact ih _
      · simp only [if_neg hm]

/-- Claim C8: a sample file whose stem matches no grouping rule contributes
nothing to the result of `load_samples` — the outcome with the file present
equals the outcome with it absent, so the skip itself is never fatal and
loading continues over the remaining files. -/
theorem c8_skipped_file_contributes_nothing
    (pre post : List SampleFile) (f : SampleFile) (folder_type : Str)
    (h : get_group_name f.stem folder_type = none) :
    load_samples (pre ++ f :: post) folder_type = load_samples (pre ++ post) folder_type := by
  unfold load_samples
  rw [loadLoop_skip pre post f folder_type [] h]

/-- A well-formed sample file matched by the first grouping rule. -/
def goodFile : SampleFile :=
  ⟨"m6A_03_rep1".data, ["Sites".data, "Gene_Type".data],
   [("100".data, some "protein_coding".data)]⟩

/-- A file matching no grouping rule, with an empty header (both required
columns missing). -/
def unmatchedFile : SampleFile := ⟨"unmatched_sample".data, [], []⟩

/-- Claim C8 (witness): skipping the unmatched file leaves the load result
unchanged, and the run completes normally on the remaining file. -/
theorem c8_skipped_file_contributes_nothing_witness :
    load_samples [unmatchedFile, goodFile] "removed".data
      = load_samples [goodFile] "removed".data
    ∧ load_samples [goodFile] "removed".data
      = .ok [("100".data, "mRNA".data, "OD600=0.3(-rRNA)".data)] :=
  ⟨c8_skipped_file_contributes_nothing [] [goodFile] unmatchedFile "removed".data (by decide),
   rfl⟩

lemma loadLoop_missing (pre post : List SampleFile) (f : SampleFile) (ft g : Str)
    (gd : List (Str × List LoadedRow))
    (hg : get_group_name f.stem ft = some g) (hm : missingColsOf f ≠ [])
    (hpre : ∀ q ∈ pre, ∀ g', get_group_name q.stem ft = some g' → missingColsOf q = []) :
    loadLoop (pre ++ f :: post) ft gd = .error (.missingColumns f.stem (missingColsOf f)) := by
  induction pre generalizing gd with
  | nil =>
    simp only [List.nil_append, loadLoop, hg]
    rw [if_neg hm]
  | cons q t ih =>
    simp only [List.cons_append, loadLoop]
    cases hq : get_group_name q.stem ft with
    | none => exact ih gd (fun q' hq' g' => hpre q' (List.mem_cons_of_mem q hq') g')
    | some g' =>
      have hqm : missingColsOf q = [] := hpre q (List.mem_cons_self q t) g' hq
      simp only [if_pos hqm]
      exact ih _ (fun q' hq' g'' => hpre q' (List.mem_cons_of_mem q hq') g'')

lemma fdr_load_missing (pre post : List SampleFile) (f : SampleFile)
    (hm : missingColsOf f ≠ []) (hpre : ∀ q ∈ pre, missingColsOf q = []) :
    fdr_load_samples (pre ++ f :: post)
      = .error (.missingColumns f.stem (missingColsOf f)) := by
  induction pre with
  | nil =>
    simp only [List.nil_append, fdr_load_samples]
    rw [if_neg hm]
  | cons q t ih =>
    have hih := ih (fun q' h => hpre q' (List.mem_cons_of_mem q h))
    simp only [List.cons_append, fdr_load_samples, List.append_eq,
      if_pos (hpre q (List.mem_cons_self q t)), hih]

/-- Claim C9 (counterexample): a file whose header lacks both required
columns but whose stem matches no grouping rule is skipped by
`group_proportion_style.load_samples` before its header is ever checked:
this run completes with `.ok`, raising no error naming the file. -/
theorem c9_missing_columns_counterexample :
    missingColsOf unmatchedFile = ["Sites".data, "Gene_Type".data]
    ∧ load_samples [goodFile, unmatchedFile] "removed".data
        = .ok [("100".data, "mRNA".data, "OD600=0.3(-rRNA)".data)] :=
  ⟨by decide, rfl⟩

/-- Claim C9 (amended): missing required columns are a fatal error naming
the offending file and the missing columns — in
`group_proportion_style.load_samples` for every file that is assigned a
group (files matching no grouping rule are skipped before the header
check), and in `FDR_proportion_plotting.load_samples` for every file. -/
theorem c9_missing_columns_fatal :
    (∀ (pre post : List SampleFile) (f : SampleFile) (folder_type g : Str),
        get_group_name f.stem folder_type = some g →
        missingColsOf f ≠ [] →
        (∀ q ∈ pre, ∀ g', get_group_name q.stem folder_type = some g' → missingColsOf q = []) →
        load_samples (pre ++ f :: post) folder_type
          = .error (.missingColumns f.stem (missingColsOf f)))
    ∧ (∀ (pre post : List SampleFile) (f : SampleFile),
        missingColsOf f ≠ [] →
        (∀ q ∈ pre, missingColsOf q = []) →
        fdr_load_samples (pre ++ f :: post)
          = .error (.missingColumns f.stem (missingColsOf f))) := by
  constructor
  · intro pre post f ft g hg hm hpre
    unfold load_samples
    rw [loadLoop_missing pre post f ft g [] hg hm hpre]
  · intro pre post f hm hpre
    exact fdr_load_missing pre post f hm hpre

/-- A file matched by the second grouping rule whose header lacks the
`Gene_Type` column. -/
def badHeaderFile : SampleFile := ⟨"m6A_1_rep1".data, ["Sites".data], []⟩

/-- Claim C9 (witness): in both loaders, a run over a good file followed by
`badHeaderFile` aborts with the missing-column error naming that file. -/
theorem c9_missing_columns_fatal_witness :
    load_samples [goodFile, badHeaderFile] "removed".data
      = .error (.missingColumns badHeaderFile.stem (missingColsOf badHeaderFile))
    ∧ fdr_load_samples [goodFile, badHeaderFile]
      = .error (.missingColumns badHeaderFile.stem (missingColsOf badHeaderFile)) :=
  ⟨c9_missing_columns_fatal.1 [goodFile] [] badHeaderFile "removed".data
      "OD600=1(-rRNA)".data (by decide) (by decide) (by decide),
   c9_missing_columns_fatal.2 [goodFile] [] badHeaderFile (by decide) (by decide)⟩
